import Mathlib

/-! Verification of the `Transport` command layer of `ppadb`
(`src/ppadb/command/transport/__init__.py`).

Shallow embedding conventions:
* Python `bytes` values are `List ℕ` (each element a byte value).
* Python `str` values are `List Char` (a string is its character sequence).
* The connection's `read(n)` returns the next `min n available` bytes of the
  stream, modelled by `List.take` / `List.drop` on the remaining stream.
* Fallible Python code returns `Except`.
-/

namespace PPAdb

/-- Model of Python `int.from_bytes(data, "little")` on a byte string of any length. -/
def intFromBytesLE (bs : List ℕ) : ℕ :=
  bs.foldr (fun b acc => b + 256 * acc) 0

/-- Little-endian encoding of `n` on `k` bytes (used to build concrete frame
streams for the decoder; inverse of `intFromBytesLE` below `256 ^ k`). -/
def toBytesLE : ℕ → ℕ → List ℕ
  | 0, _ => []
  | k + 1, n => (n % 256) :: toBytesLE k (n / 256)

theorem toBytesLE_length (k n : ℕ) : (toBytesLE k n).length = k := by
  induction k generalizing n with
  | zero => rfl
  | succ k ih => simp [toBytesLE, ih]

theorem intFromBytesLE_toBytesLE (k n : ℕ) (h : n < 256 ^ k) :
    intFromBytesLE (toBytesLE k n) = n := by
  induction k generalizing n with
  | zero => simp at h; simp [h, toBytesLE, intFromBytesLE]
  | succ k ih =>
      have hdiv : n / 256 < 256 ^ k := by
        rw [Nat.div_lt_iff_lt_mul (by norm_num)]
        calc n < 256 ^ (k + 1) := h
        _ = 256 ^ k * 256 := by ring
      simp only [toBytesLE, intFromBytesLE, List.foldr_cons]
      have := ih (n / 256) hdiv
      simp only [intFromBytesLE] at this
      rw [this]
      omega

/- Frame-id constants of `ShellProtocolTypes` (from `adb/shell_protocol.h`). -/
namespace ShellProtocolTypes

def STDIN : ℕ := 0
def STDOUT : ℕ := 1
def STDERR : ℕ := 2
def EXIT : ℕ := 3
def CLOSE_STDIN : ℕ := 4
def WINDOW_SIZE_CHANGE : ℕ := 5
def INVALID : ℕ := 255

end ShellProtocolTypes

/-- The local variables of the `shell_v2` decoding loop: the two separate
accumulators, the merged accumulator and the exit code (initially 255). -/
structure SVState where
  stdout : List ℕ
  stderr : List ℕ
  output : List ℕ
  exit_code : ℕ
deriving DecidableEq

def initSVState : SVState := ⟨[], [], [], 255⟩

/-- The nested helper `read_int(conn, length)` of `Transport.shell_v2`:
read `length` bytes; if fewer arrive the stream ended (`None`), otherwise the
little-endian value.  The second component is the rest of the stream. -/
def read_int (s : List ℕ) (length : ℕ) : Option ℕ × List ℕ :=
  if (s.take length).length < length then (none, s.drop length)
  else (some (intFromBytesLE (s.take length)), s.drop length)

theorem read_int_fst_none_iff (s : List ℕ) (length : ℕ) :
    (read_int s length).1 = none ↔ (s.take length).length < length := by
  unfold read_int
  split <;> simp_all

theorem read_int_of_long (s : List ℕ) (length : ℕ)
    (h : ¬ (s.take length).length < length) :
    read_int s length = (some (intFromBytesLE (s.take length)), s.drop length) := by
  unfold read_int
  simp only [List.length_take] at h
  simp [h]

/-- One dispatch step of the `shell_v2` loop body on a completely read frame:
`if not separate_stdout_stderr and id_ in (STDOUT, STDERR)` append to the
merged accumulator, `elif` stdout / stderr / exit, otherwise ignore the frame. -/
def dispatch (separate : Bool) (id_ : ℕ) (data : List ℕ) (st : SVState) : SVState :=
  if separate = false ∧ (id_ = ShellProtocolTypes.STDOUT ∨ id_ = ShellProtocolTypes.STDERR) then
    { st with output := st.output ++ data }
  else if id_ = ShellProtocolTypes.STDOUT then
    { st with stdout := st.stdout ++ data }
  else if id_ = ShellProtocolTypes.STDERR then
    { st with stderr := st.stderr ++ data }
  else if id_ = ShellProtocolTypes.EXIT then
    { st with exit_code := intFromBytesLE data }
  else
    st

/-- The `while True` loop of `Transport.shell_v2` (no-handler branch), with
`read_int` inlined (see `read_int_fst_none_iff` / `read_int_of_long` for the
correspondence): read the 1-byte frame id (`break` when absent), the 4-byte
little-endian length (`break` when short), then the payload (`break` when
short), dispatch on the id and continue with the rest of the stream. -/
def shell_v2_go (separate : Bool) (st : SVState) (s : List ℕ) : SVState :=
  if h1 : (s.take 1).length < 1 then st
  else
    let id_ := intFromBytesLE (s.take 1)
    let s1 := s.drop 1
    if h2 : (s1.take 4).length < 4 then st
    else
      let length := intFromBytesLE (s1.take 4)
      let s2 := s1.drop 4
      let data := s2.take length
      if h3 : data.length < length then st
      else shell_v2_go separate (dispatch separate id_ data st) (s2.drop length)
termination_by s.length
decreasing_by
  simp only [List.length_take, List.length_drop] at h1 ⊢
  omega

/-- Model of `Transport.shell_v2` without a handler and with
`separate_stdout_stderr=False`: returns `(output, exit_code)`. -/
def shell_v2_merged (s : List ℕ) : List ℕ × ℕ :=
  let st := shell_v2_go false initSVState s
  (st.output, st.exit_code)

/-- Model of `Transport.shell_v2` without a handler and with
`separate_stdout_stderr=True`: returns `(stdout, stderr, exit_code)`. -/
def shell_v2_separate (s : List ℕ) : List ℕ × List ℕ × ℕ :=
  let st := shell_v2_go true initSVState s
  (st.stdout, st.stderr, st.exit_code)

/-- Wire encoding of one shell-v2 frame: 1 id byte, 4-byte little-endian
payload length, then the payload. -/
def encodeFrame (id_ : ℕ) (payload : List ℕ) : List ℕ :=
  id_ :: (toBytesLE 4 payload.length ++ payload)

/-- Wire encoding of a sequence of frames, each given as `(id, payload)`. -/
def encodeFrames (fs : List (ℕ × List ℕ)) : List ℕ :=
  (fs.map (fun f => encodeFrame f.1 f.2)).flatten

/-- Payloads that the merged mode must accumulate: those of STDOUT and STDERR
frames, concatenated in arrival order. -/
def mergedPayloads (fs : List (ℕ × List ℕ)) : List ℕ :=
  ((fs.filter (fun f =>
      decide (f.1 = ShellProtocolTypes.STDOUT ∨ f.1 = ShellProtocolTypes.STDERR))).map
    Prod.snd).flatten

/-- Payloads of the STDOUT frames, concatenated in arrival order. -/
def stdoutPayloads (fs : List (ℕ × List ℕ)) : List ℕ :=
  ((fs.filter (fun f => decide (f.1 = ShellProtocolTypes.STDOUT))).map Prod.snd).flatten

/-- Payloads of the STDERR frames, concatenated in arrival order. -/
def stderrPayloads (fs : List (ℕ × List ℕ)) : List ℕ :=
  ((fs.filter (fun f => decide (f.1 = ShellProtocolTypes.STDERR))).map Prod.snd).flatten

/-- The exit code a frame sequence yields: the little-endian value of the last
EXIT payload, 255 when there is none. -/
def exitCodeOf (fs : List (ℕ × List ℕ)) : ℕ :=
  fs.foldl (fun e f => if f.1 = ShellProtocolTypes.EXIT then intFromBytesLE f.2 else e) 255

/-- Processing a list of already-parsed frames is a fold of `dispatch`. -/
def procFold (sep : Bool) (st : SVState) (fs : List (ℕ × List ℕ)) : SVState :=
  fs.foldl (fun a f => dispatch sep f.1 f.2 a) st

theorem intFromBytesLE_singleton (b : ℕ) : intFromBytesLE [b] = b := by
  simp [intFromBytesLE]

theorem shell_v2_go_nil (sep : Bool) (st : SVState) :
    shell_v2_go sep st [] = st := by
  rw [shell_v2_go]
  simp

theorem shell_v2_go_short_len (sep : Bool) (st : SVState) (b : ℕ) (r : List ℕ)
    (h : r.length < 4) : shell_v2_go sep st (b :: r) = st := by
  rw [shell_v2_go]
  split
  next => rfl
  next h1 =>
    dsimp only
    split
    next => rfl
    next h2 =>
      exfalso
      simp only [List.length_take, List.length_drop, List.length_cons,
        List.drop_succ_cons, List.drop_zero] at h2
      omega

theorem shell_v2_go_short_payload (sep : Bool) (st : SVState) (b : ℕ)
    (lb r : List ℕ) (h4 : lb.length = 4) (h : r.length < intFromBytesLE lb) :
    shell_v2_go sep st (b :: (lb ++ r)) = st := by
  have hmin : min (intFromBytesLE lb) r.length < intFromBytesLE lb := by omega
  rw [shell_v2_go]
  simp [List.take_left' h4, List.drop_left' h4, List.length_take, h4, hmin]

theorem shell_v2_go_frame (sep : Bool) (st : SVState) (id_ : ℕ) (p rest : List ℕ)
    (hp : p.length < 256 ^ 4) :
    shell_v2_go sep st (encodeFrame id_ p ++ rest)
      = shell_v2_go sep (dispatch sep id_ p st) rest := by
  have hA : (toBytesLE 4 p.length).length = 4 := toBytesLE_length _ _
  have hs : encodeFrame id_ p ++ rest
      = id_ :: (toBytesLE 4 p.length ++ (p ++ rest)) := by
    simp [encodeFrame]
  rw [hs, shell_v2_go]
  simp [List.take_left' hA, List.drop_left' hA, List.take_left, List.drop_left,
    intFromBytesLE_singleton, intFromBytesLE_toBytesLE 4 p.length hp, hA]

theorem shell_v2_go_frames (sep : Bool) (st : SVState) (fs : List (ℕ × List ℕ))
    (t : List ℕ) (h : ∀ f ∈ fs, f.2.length < 256 ^ 4) :
    shell_v2_go sep st (encodeFrames fs ++ t)
      = shell_v2_go sep (procFold sep st fs) t := by
  induction fs generalizing st with
  | nil => simp [encodeFrames, procFold]
  | cons f fs ih =>
      have hf : f.2.length < 256 ^ 4 := h f (by simp)
      have hs : encodeFrames (f :: fs) ++ t
          = encodeFrame f.1 f.2 ++ (encodeFrames fs ++ t) := by
        simp [encodeFrames]
      rw [hs, shell_v2_go_frame sep st f.1 f.2 _ hf,
        ih _ (fun g hg => h g (by simp [hg]))]
      simp [procFold]

theorem shell_v2_go_encodeFrames (sep : Bool) (st : SVState)
    (fs : List (ℕ × List ℕ)) (h : ∀ f ∈ fs, f.2.length < 256 ^ 4) :
    shell_v2_go sep st (encodeFrames fs) = procFold sep st fs := by
  have := shell_v2_go_frames sep st fs [] h
  simpa [shell_v2_go_nil] using this

/-- Streams that end in the middle of a frame: nothing left where the id byte
is expected, fewer than 4 bytes where the length field is expected, or fewer
payload bytes than the length field declares. -/
def TruncatedTail (t : List ℕ) : Prop :=
  t = []
  ∨ (∃ b r, t = b :: r ∧ r.length < 4)
  ∨ (∃ b lb r, t = b :: (lb ++ r) ∧ lb.length = 4 ∧ r.length < intFromBytesLE lb)

theorem shell_v2_go_truncated (sep : Bool) (st : SVState) (t : List ℕ)
    (h : TruncatedTail t) : shell_v2_go sep st t = st := by
  rcases h with rfl | ⟨b, r, rfl, hr⟩ | ⟨b, lb, r, rfl, h4, hr⟩
  · exact shell_v2_go_nil sep st
  · exact shell_v2_go_short_len sep st b r hr
  · exact shell_v2_go_short_payload sep st b lb r h4 hr

theorem dispatch_output_merged (id_ : ℕ) (d : List ℕ) (st : SVState) :
    (dispatch false id_ d st).output = st.output ++
      (if id_ = ShellProtocolTypes.STDOUT ∨ id_ = ShellProtocolTypes.STDERR then d else []) := by
  unfold dispatch
  split_ifs <;> simp_all

theorem dispatch_stdout_sep (id_ : ℕ) (d : List ℕ) (st : SVState) :
    (dispatch true id_ d st).stdout = st.stdout ++
      (if id_ = ShellProtocolTypes.STDOUT then d else []) := by
  unfold dispatch
  split_ifs <;>
    simp_all [ShellProtocolTypes.STDOUT, ShellProtocolTypes.STDERR, ShellProtocolTypes.EXIT]

theorem dispatch_stderr_sep (id_ : ℕ) (d : List ℕ) (st : SVState) :
    (dispatch true id_ d st).stderr = st.stderr ++
      (if id_ = ShellProtocolTypes.STDERR then d else []) := by
  unfold dispatch
  split_ifs <;>
    simp_all [ShellProtocolTypes.STDOUT, ShellProtocolTypes.STDERR, ShellProtocolTypes.EXIT]

theorem dispatch_exit_code (sep : Bool) (id_ : ℕ) (d : List ℕ) (st : SVState) :
    (dispatch sep id_ d st).exit_code =
      if id_ = ShellProtocolTypes.EXIT then intFromBytesLE d else st.exit_code := by
  unfold dispatch
  split_ifs <;>
    simp_all [ShellProtocolTypes.STDOUT, ShellProtocolTypes.STDERR, ShellProtocolTypes.EXIT]

theorem dispatch_ignored (sep : Bool) (id_ : ℕ) (d : List ℕ) (st : SVState)
    (h1 : id_ ≠ ShellProtocolTypes.STDOUT) (h2 : id_ ≠ ShellProtocolTypes.STDERR)
    (h3 : id_ ≠ ShellProtocolTypes.EXIT) :
    dispatch sep id_ d st = st := by
  unfold dispatch
  split_ifs <;> simp_all

theorem procFold_nil (sep : Bool) (st : SVState) : procFold sep st [] = st := rfl

theorem procFold_cons (sep : Bool) (st : SVState) (f : ℕ × List ℕ)
    (fs : List (ℕ × List ℕ)) :
    procFold sep st (f :: fs) = procFold sep (dispatch sep f.1 f.2 st) fs := rfl

theorem procFold_append (sep : Bool) (st : SVState) (l1 l2 : List (ℕ × List ℕ)) :
    procFold sep st (l1 ++ l2) = procFold sep (procFold sep st l1) l2 := by
  simp [procFold, List.foldl_append]

theorem mergedPayloads_cons (f : ℕ × List ℕ) (fs : List (ℕ × List ℕ)) :
    mergedPayloads (f :: fs) =
      (if f.1 = ShellProtocolTypes.STDOUT ∨ f.1 = ShellProtocolTypes.STDERR then f.2 else [])
        ++ mergedPayloads fs := by
  unfold mergedPayloads
  rw [List.filter_cons]
  split_ifs <;> simp_all

theorem stdoutPayloads_cons (f : ℕ × List ℕ) (fs : List (ℕ × List ℕ)) :
    stdoutPayloads (f :: fs) =
      (if f.1 = ShellProtocolTypes.STDOUT then f.2 else []) ++ stdoutPayloads fs := by
  unfold stdoutPayloads
  rw [List.filter_cons]
  split_ifs <;> simp_all

theorem stderrPayloads_cons (f : ℕ × List ℕ) (fs : List (ℕ × List ℕ)) :
    stderrPayloads (f :: fs) =
      (if f.1 = ShellProtocolTypes.STDERR then f.2 else []) ++ stderrPayloads fs := by
  unfold stderrPayloads
  rw [List.filter_cons]
  split_ifs <;> simp_all

theorem procFold_output_merged (fs : List (ℕ × List ℕ)) :
    ∀ st : SVState, (procFold false st fs).output = st.output ++ mergedPayloads fs := by
  induction fs with
  | nil => intro st; simp [procFold, mergedPayloads]
  | cons f fs ih =>
      intro st
      rw [procFold_cons, ih, dispatch_output_merged, mergedPayloads_cons,
        List.append_assoc]

theorem procFold_stdout_sep (fs : List (ℕ × List ℕ)) :
    ∀ st : SVState, (procFold true st fs).stdout = st.stdout ++ stdoutPayloads fs := by
  induction fs with
  | nil => intro st; simp [procFold, stdoutPayloads]
  | cons f fs ih =>
      intro st
      rw [procFold_cons, ih, dispatch_stdout_sep, stdoutPayloads_cons,
        List.append_assoc]

theorem procFold_stderr_sep (fs : List (ℕ × List ℕ)) :
    ∀ st : SVState, (procFold true st fs).stderr = st.stderr ++ stderrPayloads fs := by
  induction fs with
  | nil => intro st; simp [procFold, stderrPayloads]
  | cons f fs ih =>
      intro st
      rw [procFold_cons, ih, dispatch_stderr_sep, stderrPayloads_cons,
        List.append_assoc]

theorem procFold_exit_code (sep : Bool) (fs : List (ℕ × List ℕ)) :
    ∀ st : SVState, (procFold sep st fs).exit_code =
      fs.foldl (fun e f => if f.1 = ShellProtocolTypes.EXIT then intFromBytesLE f.2 else e)
        st.exit_code := by
  induction fs with
  | nil => intro st; rfl
  | cons f fs ih =>
      intro st
      rw [procFold_cons, ih, dispatch_exit_code, List.foldl_cons]

theorem procFold_exitCodeOf (sep : Bool) (fs : List (ℕ × List ℕ)) :
    (procFold sep initSVState fs).exit_code = exitCodeOf fs :=
  procFold_exit_code sep fs initSVState

theorem exitCodeOf_no_exit (fs : List (ℕ × List ℕ))
    (h : ∀ f ∈ fs, f.1 ≠ ShellProtocolTypes.EXIT) : exitCodeOf fs = 255 := by
  unfold exitCodeOf
  induction fs with
  | nil => rfl
  | cons f fs ih =>
      rw [List.foldl_cons, if_neg (h f (by simp))]
      exact ih (fun g hg => h g (by simp [hg]))

theorem shell_v2_merged_frames (fs : List (ℕ × List ℕ))
    (h : ∀ f ∈ fs, f.2.length < 256 ^ 4) :
    shell_v2_merged (encodeFrames fs) = (mergedPayloads fs, exitCodeOf fs) := by
  unfold shell_v2_merged
  rw [shell_v2_go_encodeFrames false initSVState fs h]
  dsimp only
  rw [show (procFold false initSVState fs).output = mergedPayloads fs by
    simpa [initSVState] using procFold_output_merged fs initSVState]
  rw [procFold_exitCodeOf]

theorem shell_v2_separate_frames (fs : List (ℕ × List ℕ))
    (h : ∀ f ∈ fs, f.2.length < 256 ^ 4) :
    shell_v2_separate (encodeFrames fs)
      = (stdoutPayloads fs, stderrPayloads fs, exitCodeOf fs) := by
  unfold shell_v2_separate
  rw [shell_v2_go_encodeFrames true initSVState fs h]
  dsimp only
  rw [show (procFold true initSVState fs).stdout = stdoutPayloads fs by
    simpa [initSVState] using procFold_stdout_sep fs initSVState]
  rw [show (procFold true initSVState fs).stderr = stderrPayloads fs by
    simpa [initSVState] using procFold_stderr_sep fs initSVState]
  rw [procFold_exitCodeOf]

/-- C1: For every well-formed encoded frame stream, STDOUT and STDERR
payloads are appended in arrival order: merged mode accumulates both into the
single `output` accumulator, separate mode accumulates each into its own
accumulator; in particular the stream (STDOUT,"A"), (STDERR,"B"), (EXIT, 0)
gives `("AB", 0)` merged (bytes `[65, 66]`) and `("A", "B", 0)` separate. -/
theorem shell_v2_routes_streams :
    (∀ fs : List (ℕ × List ℕ), (∀ f ∈ fs, f.2.length < 256 ^ 4) →
        shell_v2_merged (encodeFrames fs) = (mergedPayloads fs, exitCodeOf fs)
        ∧ shell_v2_separate (encodeFrames fs)
            = (stdoutPayloads fs, stderrPayloads fs, exitCodeOf fs))
    ∧ shell_v2_merged (encodeFrames
        [(ShellProtocolTypes.STDOUT, [65]), (ShellProtocolTypes.STDERR, [66]),
          (ShellProtocolTypes.EXIT, [0])]) = ([65, 66], 0)
    ∧ shell_v2_separate (encodeFrames
        [(ShellProtocolTypes.STDOUT, [65]), (ShellProtocolTypes.STDERR, [66]),
          (ShellProtocolTypes.EXIT, [0])]) = ([65], [66], 0) := by
  refine ⟨fun fs h => ⟨shell_v2_merged_frames fs h, shell_v2_separate_frames fs h⟩, ?_, ?_⟩
  · rw [shell_v2_merged_frames _ (by decide)]
    decide
  · rw [shell_v2_separate_frames _ (by decide)]
    decide

/-- Witness for C1 at the concrete three-frame stream of the claim. -/
theorem shell_v2_routes_streams_witness :
    shell_v2_merged (encodeFrames
      [(ShellProtocolTypes.STDOUT, [65]), (ShellProtocolTypes.STDERR, [66]),
        (ShellProtocolTypes.EXIT, [0])]) = ([65, 66], 0) :=
  shell_v2_routes_streams.2.1

/-- C2: A stream that ends mid-frame (truncated id, length, or payload) is
not an error: the loop just stops, the result is exactly the result of the
complete frames before the truncation, and the exit code is 255 whenever no
complete EXIT frame was decoded. -/
theorem shell_v2_truncated_stream :
    ∀ (fs : List (ℕ × List ℕ)) (t : List ℕ),
      (∀ f ∈ fs, f.2.length < 256 ^ 4) → TruncatedTail t →
      shell_v2_merged (encodeFrames fs ++ t) = shell_v2_merged (encodeFrames fs)
      ∧ shell_v2_separate (encodeFrames fs ++ t) = shell_v2_separate (encodeFrames fs)
      ∧ ((∀ f ∈ fs, f.1 ≠ ShellProtocolTypes.EXIT) →
          (shell_v2_merged (encodeFrames fs ++ t)).2 = 255
          ∧ (shell_v2_separate (encodeFrames fs ++ t)).2.2 = 255) := by
  intro fs t h ht
  have hm : shell_v2_merged (encodeFrames fs ++ t) = shell_v2_merged (encodeFrames fs) := by
    unfold shell_v2_merged
    rw [shell_v2_go_frames false initSVState fs t h,
      shell_v2_go_truncated false _ t ht, shell_v2_go_encodeFrames false initSVState fs h]
  have hsep : shell_v2_separate (encodeFrames fs ++ t) = shell_v2_separate (encodeFrames fs) := by
    unfold shell_v2_separate
    rw [shell_v2_go_frames true initSVState fs t h,
      shell_v2_go_truncated true _ t ht, shell_v2_go_encodeFrames true initSVState fs h]
  refine ⟨hm, hsep, fun hne => ?_⟩
  constructor
  · rw [hm, shell_v2_merged_frames fs h]
    exact exitCodeOf_no_exit fs hne
  · rw [hsep, shell_v2_separate_frames fs h]
    exact exitCodeOf_no_exit fs hne

/-- Witness for C2: one complete STDOUT frame followed by a frame whose header
declares 10 payload bytes while only 3 arrive (spec test 2). -/
theorem shell_v2_truncated_stream_witness :
    shell_v2_merged (encodeFrames [(ShellProtocolTypes.STDOUT, [65])]
        ++ (ShellProtocolTypes.STDERR :: ([10, 0, 0, 0] ++ [66, 66, 66])))
      = shell_v2_merged (encodeFrames [(ShellProtocolTypes.STDOUT, [65])])
    ∧ (shell_v2_merged (encodeFrames [(ShellProtocolTypes.STDOUT, [65])]
        ++ (ShellProtocolTypes.STDERR :: ([10, 0, 0, 0] ++ [66, 66, 66])))).2 = 255 := by
  have h := shell_v2_truncated_stream [(ShellProtocolTypes.STDOUT, [65])]
    (ShellProtocolTypes.STDERR :: ([10, 0, 0, 0] ++ [66, 66, 66]))
    (by decide)
    (Or.inr (Or.inr ⟨ShellProtocolTypes.STDERR, [10, 0, 0, 0], [66, 66, 66], rfl,
      rfl, by decide⟩))
  exact ⟨h.1, (h.2.2 (by decide)).1⟩

/-- C3: Frames with id STDIN(0), CLOSE_STDIN(4), WINDOW_SIZE_CHANGE(5) or
INVALID(255) are fully consumed and discarded: the loop never stops at such a
frame (it continues with the rest of the stream and an unchanged state), and
inserting such a frame anywhere in a stream — also after an EXIT frame —
changes neither the accumulators nor the exit code. -/
theorem shell_v2_ignores_other_frame_ids :
    ∀ (id_ : ℕ) (p : List ℕ),
      (id_ = ShellProtocolTypes.STDIN ∨ id_ = ShellProtocolTypes.CLOSE_STDIN
        ∨ id_ = ShellProtocolTypes.WINDOW_SIZE_CHANGE ∨ id_ = ShellProtocolTypes.INVALID) →
      p.length < 256 ^ 4 →
      (∀ (sep : Bool) (st : SVState) (rest : List ℕ),
          shell_v2_go sep st (encodeFrame id_ p ++ rest) = shell_v2_go sep st rest)
      ∧ ∀ fs1 fs2 : List (ℕ × List ℕ),
          (∀ f ∈ fs1, f.2.length < 256 ^ 4) → (∀ f ∈ fs2, f.2.length < 256 ^ 4) →
          shell_v2_merged (encodeFrames (fs1 ++ (id_, p) :: fs2))
            = shell_v2_merged (encodeFrames (fs1 ++ fs2))
          ∧ shell_v2_separate (encodeFrames (fs1 ++ (id_, p) :: fs2))
            = shell_v2_separate (encodeFrames (fs1 ++ fs2)) := by
  intro id_ p hid hp
  have hne1 : id_ ≠ ShellProtocolTypes.STDOUT := by
    rcases hid with h | h | h | h <;> simp [h, ShellProtocolTypes.STDIN,
      ShellProtocolTypes.CLOSE_STDIN, ShellProtocolTypes.WINDOW_SIZE_CHANGE,
      ShellProtocolTypes.INVALID, ShellProtocolTypes.STDOUT]
  have hne2 : id_ ≠ ShellProtocolTypes.STDERR := by
    rcases hid with h | h | h | h <;> simp [h, ShellProtocolTypes.STDIN,
      ShellProtocolTypes.CLOSE_STDIN, ShellProtocolTypes.WINDOW_SIZE_CHANGE,
      ShellProtocolTypes.INVALID, ShellProtocolTypes.STDERR]
  have hne3 : id_ ≠ ShellProtocolTypes.EXIT := by
    rcases hid with h | h | h | h <;> simp [h, ShellProtocolTypes.STDIN,
      ShellProtocolTypes.CLOSE_STDIN, ShellProtocolTypes.WINDOW_SIZE_CHANGE,
      ShellProtocolTypes.INVALID, ShellProtocolTypes.EXIT]
  have hstep : ∀ (sep : Bool) (st : SVState) (rest : List ℕ),
      shell_v2_go sep st (encodeFrame id_ p ++ rest) = shell_v2_go sep st rest := by
    intro sep st rest
    rw [shell_v2_go_frame sep st id_ p rest hp,
      dispatch_ignored sep id_ p st hne1 hne2 hne3]
  refine ⟨hstep, fun fs1 fs2 h1 h2 => ?_⟩
  have hall : ∀ f ∈ fs1 ++ (id_, p) :: fs2, f.2.length < 256 ^ 4 := by
    intro f hf
    rcases List.mem_append.1 hf with hf | hf
    · exact h1 f hf
    · rcases List.mem_cons.1 hf with rfl | hf
      · exact hp
      · exact h2 f hf
  have hall' : ∀ f ∈ fs1 ++ fs2, f.2.length < 256 ^ 4 := by
    intro f hf
    rcases List.mem_append.1 hf with hf | hf
    · exact h1 f hf
    · exact h2 f hf
  have hfold : procFold false initSVState (fs1 ++ (id_, p) :: fs2)
      = procFold false initSVState (fs1 ++ fs2) := by
    rw [procFold_append, procFold_append, procFold_cons,
      dispatch_ignored false id_ p _ hne1 hne2 hne3]
  have hfoldT : procFold true initSVState (fs1 ++ (id_, p) :: fs2)
      = procFold true initSVState (fs1 ++ fs2) := by
    rw [procFold_append, procFold_append, procFold_cons,
      dispatch_ignored true id_ p _ hne1 hne2 hne3]
  constructor
  · unfold shell_v2_merged
    rw [shell_v2_go_encodeFrames false initSVState _ hall,
      shell_v2_go_encodeFrames false initSVState _ hall', hfold]
  · unfold shell_v2_separate
    rw [shell_v2_go_encodeFrames true initSVState _ hall,
      shell_v2_go_encodeFrames true initSVState _ hall', hfoldT]

/-- Witness for C3: a WINDOW_SIZE_CHANGE frame with a nonzero payload inserted
between a STDOUT frame and an EXIT frame changes nothing, and the loop steps
over it (spec test 3). -/
theorem shell_v2_ignores_other_frame_ids_witness :
    shell_v2_merged (encodeFrames
        ([(ShellProtocolTypes.STDOUT, [65])]
          ++ (ShellProtocolTypes.WINDOW_SIZE_CHANGE, [55, 56]) :: [(ShellProtocolTypes.EXIT, [0])]))
      = shell_v2_merged (encodeFrames
          ([(ShellProtocolTypes.STDOUT, [65])] ++ [(ShellProtocolTypes.EXIT, [0])])) :=
  ((shell_v2_ignores_other_frame_ids ShellProtocolTypes.WINDOW_SIZE_CHANGE [55, 56]
      (Or.inr (Or.inr (Or.inl rfl))) (by decide)).2
    [(ShellProtocolTypes.STDOUT, [65])] [(ShellProtocolTypes.EXIT, [0])]
    (by decide) (by decide)).1

/-! Connection lifecycle of `shell` and `shell_v2` (claim C4)

`Transport.shell` without a handler runs `result = conn.read_all()`,
`conn.close()`, `return result.decode("utf-8")` with no `try`/`finally` and no
`with` block; `Transport.shell_v2` without a handler never calls
`conn.close()` at all.  The embedding threads the connection status
explicitly: reading and decoding are modelled as fallible parameters, and the
status records whether `close()` was executed before the function exited. -/

inductive ConnStatus
  | opened
  | closed
deriving DecidableEq

/-- Model of `Transport.shell` with `handler=None`: the connection is created open;
`read_all` may raise (first component of the parameter pair); on success
`close()` runs and only then `decode` runs (which may itself raise). -/
def shell_noHandler (readAll : Except (List Char) (List ℕ))
    (decode : List ℕ → Except (List Char) (List Char)) :
    Except (List Char) (List Char) × ConnStatus :=
  match readAll with
  | .error e => (.error e, ConnStatus.opened)
  | .ok bs =>
      match decode bs with
      | .error e => (.error e, ConnStatus.closed)
      | .ok txt => (.ok txt, ConnStatus.closed)

/-- Model of `Transport.shell_v2` with `handler=None`: the decoding loop runs and the
result is returned; no statement of the function body closes the connection. -/
def shell_v2_noHandler (separate : Bool) (s : List ℕ) : SVState × ConnStatus :=
  (shell_v2_go separate initSVState s, ConnStatus.opened)

/-- C4 counterexample: the claim says `shell` and `shell_v2` close their
connection on every exit path.  False: `shell_v2` without a handler returns
successfully (here on a well-formed single-EXIT stream) with the connection
still open, and `shell` whose `read_all` raises also leaves it open. -/
theorem shell_v2_leaves_connection_open :
    (shell_v2_noHandler false (encodeFrames [(ShellProtocolTypes.EXIT, [0])])).2
        ≠ ConnStatus.closed
    ∧ (shell_noHandler (.error "connection reset".data)
        (fun _ => .ok [])).2 ≠ ConnStatus.closed := by
  constructor
  · intro h
    exact ConnStatus.noConfusion h
  · intro h
    exact ConnStatus.noConfusion h

/-- C4 amended: `shell` without a handler closes its connection exactly on
the exit paths where `read_all` succeeds (decoding runs after the close, so
decode errors still leave it closed); when `read_all` raises, the connection
stays open.  `shell_v2` without a handler never closes the connection it
created, on any exit path. -/
theorem shell_conn_lifecycle :
    (∀ (bs : List ℕ) (decode : List ℕ → Except (List Char) (List Char)),
        (shell_noHandler (.ok bs) decode).2 = ConnStatus.closed)
    ∧ (∀ (e : List Char) (decode : List ℕ → Except (List Char) (List Char)),
        (shell_noHandler (.error e) decode).2 = ConnStatus.opened)
    ∧ (∀ (sep : Bool) (s : List ℕ),
        (shell_v2_noHandler sep s).2 = ConnStatus.opened) := by
  refine ⟨fun bs decode => ?_, fun e decode => rfl, fun sep s => rfl⟩
  cases h : decode bs <;> simp [shell_noHandler, h]

/-! Claims C5 and C10: `wait_boot_complete`.

`Transport.wait_boot_complete(timeout, timedelta)` computes
`end_time = time.time() + timeout` once at entry, then loops: run
`self.shell('getprop sys.boot_completed')`; if it raises `RuntimeError`, log
and `continue` (no time check, no sleep); if the stripped result is `"1"`,
return `True`; if `time.time() > end_time`, raise `TimeoutError`; else sleep
`timedelta` (when positive) and loop.

Embedding: `query i` is the result of the i-th shell call (`none` models a
raised `RuntimeError`), `clock i` is the value `time.time()` would return at
the deadline check of iteration `i` (sleeping advances this clock), and a fuel
argument makes the possibly non-terminating loop a total function:
`outOfFuel` means the loop was still running after `fuel` iterations. -/

/-- Python `str.strip()` restricted to its whitespace default. -/
def pyStrip (s : List Char) : List Char :=
  ((s.dropWhile Char.isWhitespace).reverse.dropWhile Char.isWhitespace).reverse

inductive WbcResult
  | success (attempts : ℕ)
  | timeoutErr (attempts : ℕ) (raiseTime : ℤ)
  | outOfFuel
deriving DecidableEq

/-- The `while True` loop of `wait_boot_complete`; `i` is the iteration
counter (so iteration `i` performs query attempt `i + 1`). -/
def wbcRun (query : ℕ → Option (List Char)) (clock : ℕ → ℤ) (end_time : ℤ) :
    ℕ → ℕ → WbcResult
  | 0, _ => .outOfFuel
  | fuel + 1, i =>
      match query i with
      | none => wbcRun query clock end_time fuel (i + 1)
      | some r =>
          if pyStrip r = "1".data then .success (i + 1)
          else if clock i > end_time then .timeoutErr (i + 1) (clock i)
          else wbcRun query clock end_time fuel (i + 1)

/-- Model of `Transport.wait_boot_complete`: the deadline is computed once at entry as
the start wall-clock time plus the timeout and is passed unchanged to every
iteration of the loop. -/
def wait_boot_complete (query : ℕ → Option (List Char)) (start : ℤ)
    (clock : ℕ → ℤ) (timeout : ℤ) (fuel : ℕ) : WbcResult :=
  wbcRun query clock (start + timeout) fuel 0

theorem wbcRun_step (query : ℕ → Option (List Char)) (clock : ℕ → ℤ)
    (end_time : ℤ) (fuel i : ℕ) (r : List Char) (hq : query i = some r)
    (hr : pyStrip r ≠ "1".data) (hc : ¬ clock i > end_time) :
    wbcRun query clock end_time (fuel + 1) i = wbcRun query clock end_time fuel (i + 1) := by
  conv_lhs => unfold wbcRun
  rw [hq]
  simp [hr, hc]

theorem wbcRun_timeout (query : ℕ → Option (List Char)) (clock : ℕ → ℤ)
    (end_time : ℤ) (fuel i : ℕ) (r : List Char) (hq : query i = some r)
    (hr : pyStrip r ≠ "1".data) (hc : clock i > end_time) :
    wbcRun query clock end_time (fuel + 1) i = .timeoutErr (i + 1) (clock i) := by
  conv_lhs => unfold wbcRun
  rw [hq]
  simp [hr, hc]

/-- C5: With a query that always returns `"0"`, `wait_boot_complete` with
`timeout=2` raises `TimeoutError` at the first deadline check whose wall-clock
time exceeds `start + 2` (so strictly more than 2 seconds after entry), having
performed at least 2 query attempts; the deadline `start + 2` is the one
computed at entry and is never recomputed. -/
theorem wait_boot_complete_times_out (clock : ℕ → ℤ) (start : ℤ) (k fuel : ℕ)
    (h0 : clock 0 ≤ start + 2)
    (hbefore : ∀ j < k, clock j ≤ start + 2)
    (hk : clock k > start + 2)
    (hfuel : k < fuel) :
    wait_boot_complete (fun _ => some "0".data) start clock 2 fuel
        = .timeoutErr (k + 1) (clock k)
    ∧ 2 ≤ k + 1 ∧ start + 2 < clock k := by
  have hne : pyStrip "0".data ≠ "1".data := by decide
  have hk1 : 1 ≤ k := by
    rcases Nat.eq_zero_or_pos k with rfl | h
    · omega
    · exact h
  have main : ∀ d i fuel', i + d = k → (∀ j, j < k → clock j ≤ start + 2) →
      d < fuel' →
      wbcRun (fun _ => some "0".data) clock (start + 2) fuel' i
        = .timeoutErr (k + 1) (clock k) := by
    intro d
    induction d with
    | zero =>
        intro i fuel' hi hb hf
        obtain ⟨f, rfl⟩ : ∃ f, fuel' = f + 1 := ⟨fuel' - 1, by omega⟩
        have : i = k := by omega
        subst this
        exact wbcRun_timeout _ clock (start + 2) f i _ rfl hne hk
    | succ d ih =>
        intro i fuel' hi hb hf
        obtain ⟨f, rfl⟩ : ∃ f, fuel' = f + 1 := ⟨fuel' - 1, by omega⟩
        have hlt : i < k := by omega
        rw [wbcRun_step _ clock (start + 2) f i _ rfl hne (by
          have := hb i hlt
          omega)]
        exact ih (i + 1) f (by omega) hb (by omega)
  exact ⟨main k 0 fuel (by omega) hbefore hfuel, by omega, hk⟩

/-- Witness for C5: queries are instantaneous and each 1-second sleep advances
the clock by 1, so the check of iteration `i` happens at time `i`; the loop
times out at iteration 3 (the first with `clock > 2`), after 4 attempts. -/
theorem wait_boot_complete_times_out_witness :
    wait_boot_complete (fun _ => some "0".data) 0 (fun i => (i : ℤ)) 2 10
        = .timeoutErr 4 3
    ∧ 2 ≤ 4 ∧ (0 : ℤ) + 2 < 3 := by
  have h := wait_boot_complete_times_out (fun i => (i : ℤ)) 0 3 10
    (by norm_num) (by intro j hj; show (j : ℤ) ≤ 0 + 2; omega) (by norm_num) (by norm_num)
  exact ⟨h.1, by norm_num, by norm_num⟩

/-- C10: If every query raises a recoverable `RuntimeError`, the loop
retries immediately: it never checks the clock against the deadline (the
outcome is the same for any clock and any deadline) and it never terminates —
for every amount of fuel it is still running, so no `TimeoutError` and no
result is ever produced. -/
theorem wait_boot_complete_never_times_out (query : ℕ → Option (List Char))
    (hq : ∀ i, query i = none) :
    ∀ (clock clock' : ℕ → ℤ) (e e' : ℤ) (fuel i : ℕ),
      wbcRun query clock e fuel i = .outOfFuel
      ∧ wbcRun query clock e fuel i = wbcRun query clock' e' fuel i := by
  have main : ∀ (clock : ℕ → ℤ) (e : ℤ) (fuel i : ℕ),
      wbcRun query clock e fuel i = .outOfFuel := by
    intro clock e fuel
    induction fuel with
    | zero => intro i; rfl
    | succ fuel ih =>
        intro i
        unfold wbcRun
        rw [hq i]
        exact ih (i + 1)
  intro clock clock' e e' fuel i
  rw [main clock e fuel i, main clock' e' fuel i]
  exact ⟨rfl, rfl⟩

/-- Witness for C10 at a concrete always-raising query, clock and deadline. -/
theorem wait_boot_complete_never_times_out_witness :
    wbcRun (fun _ => none) (fun i => (i : ℤ)) 2 1000 0 = .outOfFuel :=
  ((wait_boot_complete_never_times_out (fun _ => none) (fun _ => rfl))
    (fun i => (i : ℤ)) (fun i => (i : ℤ)) 2 2 1000 0).1

/-! Line-oriented parsers (claims C6 and C7) -/

/-- Python `s.split('\n')`: split on every newline, keeping empty pieces
(`"".split('\n') == [""]`). -/
def splitOnNL : List Char → List (List Char)
  | [] => [[]]
  | c :: rest =>
      if c = '\n' then [] :: splitOnNL rest
      else
        match splitOnNL rest with
        | [] => [[c]]
        | h :: t => (c :: h) :: t

/-- Helper for `pySplitWS`; `cur` is the current token, reversed. -/
def pySplitWSAux : List Char → List Char → List (List Char)
  | [], cur => if cur = [] then [] else [cur.reverse]
  | c :: rest, cur =>
      if c.isWhitespace then
        if cur = [] then pySplitWSAux rest []
        else cur.reverse :: pySplitWSAux rest []
      else pySplitWSAux rest (c :: cur)

/-- Python `line.split()` with no argument: tokens separated by runs of
whitespace, with no empty tokens. -/
def pySplitWS (s : List Char) : List (List Char) :=
  pySplitWSAux s []

/-- One parsed `reverse:list-forward` entry: the line's second and third
whitespace-separated tokens; the first (the device serial) is discarded. -/
structure RevEntry where
  remote : List Char
  «local» : List Char
deriving DecidableEq

/-- The command string `list_reverses` sends. -/
def list_reverses_cmd : List Char := "reverse:list-forward".data

/-- The parsing loop of `Transport.list_reverses` over the split lines:
`if not line: continue`, then `serial, remote, local = line.split()` — tuple
unpacking raises `ValueError` (modelled as `.error ()`) unless the line has
exactly three tokens. -/
def parseReverseLines : List (List Char) → Except Unit (List RevEntry)
  | [] => .ok []
  | line :: rest =>
      if line = [] then parseReverseLines rest
      else
        match pySplitWS line with
        | [_serial, remote, l] =>
            match parseReverseLines rest with
            | .ok es => .ok (⟨remote, l⟩ :: es)
            | .error e => .error e
        | _ => .error ()

/-- Model of `Transport.list_reverses` applied to the framed text response of the
`reverse:list-forward` command (obtained with `conn.receive()`). -/
def list_reverses (result : List Char) : Except Unit (List RevEntry) :=
  parseReverseLines (splitOnNL result)

/-- Claim-side reading of one reverse-list line (spec §4.4): exactly three
whitespace-separated tokens yield `{remote := second, local := third}`. -/
def revEntrySpec (line : List Char) : Option RevEntry :=
  match pySplitWS line with
  | [_serial, remote, l] => some ⟨remote, l⟩
  | _ => none

theorem parseReverseLines_cons_not3 (line : List Char) (rest : List (List Char))
    (hl : line ≠ []) (hsp : (pySplitWS line).length ≠ 3) :
    parseReverseLines (line :: rest) = .error () := by
  cases sp : pySplitWS line with
  | nil => simp [parseReverseLines, hl, sp]
  | cons a t =>
      cases t with
      | nil => simp [parseReverseLines, hl, sp]
      | cons b t2 =>
          cases t2 with
          | nil => simp [parseReverseLines, hl, sp]
          | cons c t3 =>
              cases t3 with
              | nil => exact absurd (by rw [sp]; rfl) hsp
              | cons d t4 => simp [parseReverseLines, hl, sp]

theorem parseReverseLines_ok (lines : List (List Char))
    (h : ∀ l ∈ lines, l ≠ [] → (pySplitWS l).length = 3) :
    parseReverseLines lines
      = .ok ((lines.filter (fun l => decide (l ≠ []))).filterMap revEntrySpec) := by
  induction lines with
  | nil => rfl
  | cons line rest ih =>
      have ihr := ih (fun l hl => h l (by simp [hl]))
      by_cases hl : line = []
      · subst hl
        simp [parseReverseLines, ihr]
      · have h3 : (pySplitWS line).length = 3 := h line (by simp) hl
        obtain ⟨a, b, c, habc⟩ := List.length_eq_three.1 h3
        simp [parseReverseLines, hl, habc, ihr, revEntrySpec]

theorem parseReverseLines_error (lines : List (List Char))
    (h : ∃ l ∈ lines, l ≠ [] ∧ (pySplitWS l).length ≠ 3) :
    parseReverseLines lines = .error () := by
  induction lines with
  | nil => simp at h
  | cons line rest ih =>
      rcases h with ⟨l, hmem, hne, hlen⟩
      rcases List.mem_cons.1 hmem with rfl | hmem'
      · exact parseReverseLines_cons_not3 l rest hne hlen
      · have hrest : parseReverseLines rest = .error () := ih ⟨l, hmem', hne, hlen⟩
        by_cases hl : line = []
        · simp [parseReverseLines, hl, hrest]
        · cases sp : pySplitWS line with
          | nil => simp [parseReverseLines, hl, sp]
          | cons a t =>
              cases t with
              | nil => simp [parseReverseLines, hl, sp]
              | cons b t2 =>
                  cases t2 with
                  | nil => simp [parseReverseLines, hl, sp]
                  | cons c t3 =>
                      cases t3 with
                      | nil => simp [parseReverseLines, hl, sp, hrest]
                      | cons d t4 => simp [parseReverseLines, hl, sp]

/-- C6: `list_reverses` parses the framed text answer of
`reverse:list-forward` line by line: empty lines are skipped; a non-empty line
of exactly three whitespace-separated tokens yields `{remote := second token,
local := third token}` (serial discarded) in input order; a non-empty line
with any other token count makes the whole call fail with an error instead of
being skipped. -/
theorem list_reverses_parses_lines :
    list_reverses_cmd = "reverse:list-forward".data
    ∧ ∀ result : List Char,
        ((∀ l ∈ splitOnNL result, l ≠ [] → (pySplitWS l).length = 3) →
          list_reverses result
            = .ok (((splitOnNL result).filter (fun l => decide (l ≠ []))).filterMap
                revEntrySpec))
        ∧ ((∃ l ∈ splitOnNL result, l ≠ [] ∧ (pySplitWS l).length ≠ 3) →
          list_reverses result = .error ()) := by
  refine ⟨rfl, fun result => ⟨fun h => ?_, fun h => ?_⟩⟩
  · exact parseReverseLines_ok (splitOnNL result) h
  · exact parseReverseLines_error (splitOnNL result) h

/-- Witness for C6 on a concrete two-entry response with an interposed empty
line, and on a malformed two-token line. -/
theorem list_reverses_parses_lines_witness :
    list_reverses "sX tcp:5000 tcp:6000\n\nsY tcp:7 tcp:8".data
      = .ok [⟨"tcp:5000".data, "tcp:6000".data⟩, ⟨"tcp:7".data, "tcp:8".data⟩]
    ∧ list_reverses "sX tcp:5000\n".data = .error () := by
  constructor
  · have h := ((list_reverses_parses_lines.2 "sX tcp:5000 tcp:6000\n\nsY tcp:7 tcp:8".data).1
      (by decide))
    rw [h]
    simp only [Except.ok.injEq]
    decide
  · exact (list_reverses_parses_lines.2 "sX tcp:5000\n".data).2
      (by decide)

/-- A feature's value: plain `feature:<name>` lines map to boolean `True`,
`feature:<name>=<value>` lines to the string value. -/
inductive FeatureValue
  | boolTrue
  | str (s : List Char)
deriving DecidableEq

def featurePrefix : List Char := "feature:".data

/-- The effect of the trailing `\r?` of the pattern
`^feature:(.*?)(?:=(.*?))?\r?$`: one carriage return at the very end of the
matched stretch is left out of the capture. -/
def stripOneCR (s : List Char) : List Char :=
  if s.getLast? = some '\r' then s.dropLast else s

/-- Model of the match of `list_features`, the pattern being
feature-colon, lazy group 1, an optional group (equals sign then lazy
group 2), an optional carriage return, end anchor (re.match semantics):
a line matches iff it starts with `feature:`; the lazy first group reaches to
the first `=` when one exists (the second group is then the remainder), and to
the end otherwise; `\r?$` strips one trailing carriage return from whichever
group ends the line.  `none` = no match, `boolTrue` = group 2 absent. -/
def parseFeatureLine (line : List Char) : Option (List Char × FeatureValue) :=
  if featurePrefix.isPrefixOf line then
    if (line.drop 8).any (fun c => c == '=') then
      some ((line.drop 8).takeWhile (fun c => !(c == '=')),
        FeatureValue.str (stripOneCR (((line.drop 8).dropWhile (fun c => !(c == '='))).drop 1)))
    else
      some (stripOneCR (line.drop 8), FeatureValue.boolTrue)
  else none

/-- Python `dict` assignment `features[name] = value`: overwrite in place if
the key exists, else append. -/
def dictInsert (m : List (List Char × FeatureValue)) (k : List Char)
    (v : FeatureValue) : List (List Char × FeatureValue) :=
  if m.any (fun p => p.1 == k) then m.map (fun p => if p.1 == k then (k, v) else p)
  else m ++ [(k, v)]

/-- Model of `Transport.list_features` applied to the text that
`shell("pm list features 2>/dev/null")` returned: each line is matched
against the feature pattern and matches populate the dict in order. -/
def list_features (result : List Char) : List (List Char × FeatureValue) :=
  (splitOnNL result).foldl
    (fun m line =>
      match parseFeatureLine line with
      | some kv => dictInsert m kv.1 kv.2
      | none => m) []

theorem takeWhile_append_of_forall {α : Type} (p : α → Bool) (l₁ l₂ : List α)
    (h : ∀ a ∈ l₁, p a = true) :
    (l₁ ++ l₂).takeWhile p = l₁ ++ l₂.takeWhile p := by
  induction l₁ with
  | nil => simp
  | cons a t ih =>
      simp [List.takeWhile_cons, h a (by simp),
        ih (fun x hx => h x (by simp [hx]))]

theorem dropWhile_append_of_forall {α : Type} (p : α → Bool) (l₁ l₂ : List α)
    (h : ∀ a ∈ l₁, p a = true) :
    (l₁ ++ l₂).dropWhile p = l₂.dropWhile p := by
  induction l₁ with
  | nil => simp
  | cons a t ih =>
      simp [List.dropWhile_cons, h a (by simp),
        ih (fun x hx => h x (by simp [hx]))]

/-- C7: `list_features` maps each line `feature:<name>` (no `=`) to
`name -> True` and each line `feature:<name>=<value>` to `name -> value`;
lines not starting with `feature:` contribute nothing; on
`"feature:foo\nfeature:bar=2\n"` the result is
`{foo: True, bar: "2"}`. -/
theorem list_features_grammar :
    (∀ name : List Char, (∀ c ∈ name, c ≠ '=') → name.getLast? ≠ some '\r' →
        parseFeatureLine (featurePrefix ++ name) = some (name, FeatureValue.boolTrue))
    ∧ (∀ name value : List Char, (∀ c ∈ name, c ≠ '=') →
        value.getLast? ≠ some '\r' →
        parseFeatureLine (featurePrefix ++ name ++ '=' :: value)
          = some (name, FeatureValue.str value))
    ∧ (∀ line : List Char, ¬ featurePrefix.isPrefixOf line = true →
        parseFeatureLine line = none)
    ∧ list_features "feature:foo\nfeature:bar=2\n".data
        = [("foo".data, FeatureValue.boolTrue), ("bar".data, FeatureValue.str "2".data)] := by
  have hpre : ∀ t : List Char, featurePrefix.isPrefixOf (featurePrefix ++ t) = true := by
    intro t
    rw [List.isPrefixOf_iff_prefix]
    exact List.prefix_append _ _
  have hdrop : ∀ t : List Char, (featurePrefix ++ t).drop 8 = t := fun t =>
    List.drop_left' (by decide)
  refine ⟨fun name hne hcr => ?_, fun name value hne hcr => ?_, fun line h => ?_, ?_⟩
  · have hany : name.any (fun c => c == '=') = false := by
      rw [Bool.eq_false_iff]
      intro hx
      rcases List.any_eq_true.1 hx with ⟨c, hc, hceq⟩
      exact hne c hc (by simpa using hceq)
    unfold parseFeatureLine
    simp [hpre name, hdrop name, hany, stripOneCR, hcr]
  · have hassoc : featurePrefix ++ name ++ '=' :: value
        = featurePrefix ++ (name ++ '=' :: value) := by
      rw [List.append_assoc]
    have hforall : ∀ a ∈ name, (!(a == '=')) = true := by
      intro a ha
      simpa using hne a ha
    have hany : (name ++ '=' :: value).any (fun c => c == '=') = true := by
      rw [List.any_eq_true]
      exact ⟨'=', by simp, by simp⟩
    have htake : (name ++ '=' :: value).takeWhile (fun c => !(c == '=')) = name := by
      rw [takeWhile_append_of_forall _ name _ hforall]
      simp [List.takeWhile_cons]
    have hdropw : (name ++ '=' :: value).dropWhile (fun c => !(c == '=')) = '=' :: value := by
      rw [dropWhile_append_of_forall _ name _ hforall]
      simp [List.dropWhile_cons]
    rw [hassoc]
    unfold parseFeatureLine
    simp [hpre _, hdrop _, hany, htake, hdropw, stripOneCR, hcr]
  · unfold parseFeatureLine
    simp [h]
  · decide

/-- Witness for C7: a flag feature and a valued feature line. -/
theorem list_features_grammar_witness :
    parseFeatureLine (featurePrefix ++ "foo".data)
      = some ("foo".data, FeatureValue.boolTrue)
    ∧ parseFeatureLine (featurePrefix ++ "bar".data ++ '=' :: "2".data)
      = some ("bar".data, FeatureValue.str "2".data) :=
  ⟨list_features_grammar.1 "foo".data (by decide) (by decide),
    list_features_grammar.2.1 "bar".data "2".data (by decide) (by decide)⟩

/-! Claim C8: the `root` command. -/

/-- The command string `root` sends. -/
def root_cmd : List Char := "root:".data

/-- The confirmation phrase `root` searches for in the decoded reply. -/
def rootPhrase : List Char := "restarting adbd as root".data

/-- Python `needle in hay` for strings: substring containment. -/
def pyContains (needle hay : List Char) : Bool :=
  hay.tails.any (fun t => needle.isPrefixOf t)

/-- Model of `Transport.root`: send `root:`, read the whole reply, decode it; return
`True` when it contains the confirmation phrase, otherwise raise
`RuntimeError(result.strip())` (modelled as the error payload). -/
def root (result : List Char) : Except (List Char) Bool :=
  if pyContains rootPhrase result then .ok true
  else .error (pyStrip result)

/-- C8 counterexample: the claim says the failure carries the raw,
unmodified server message; the code raises `RuntimeError(result.strip())`, so
on reply `"fail\n"` the error payload is the stripped `"fail"`, not the raw
`"fail\n"`. -/
theorem root_error_not_raw_counterexample :
    root "fail\n".data = .error "fail".data
    ∧ root "fail\n".data ≠ .error "fail\n".data := by
  have h1 : root "fail\n".data = .error "fail".data := by rfl
  refine ⟨h1, fun h => ?_⟩
  rw [h1] at h
  have h2 := Except.error.inj h
  exact absurd h2 (by decide)

/-- C8 amended: `root` sends `root:`, reads and decodes the full reply,
succeeds exactly when the reply contains the confirmation phrase (substring
match), and otherwise raises a generic failure carrying the
whitespace-stripped (not the raw) server message. -/
theorem root_success_and_failure :
    root_cmd = "root:".data
    ∧ ∀ result : List Char,
        (pyContains rootPhrase result = true → root result = .ok true)
        ∧ (pyContains rootPhrase result = false →
            root result = .error (pyStrip result)) := by
  refine ⟨rfl, fun result => ⟨fun h => ?_, fun h => ?_⟩⟩
  · simp [root, h]
  · simp [root, h]

/-- Witness for C8: the success phrase and a failure reply. -/
theorem root_success_and_failure_witness :
    root "restarting adbd as root\n".data = .ok true
    ∧ root "adbd cannot run as root in production builds\n".data
        = .error (pyStrip "adbd cannot run as root in production builds\n".data) :=
  ⟨(root_success_and_failure.2 _).1 (by decide),
    (root_success_and_failure.2 _).2 (by decide)⟩

/-! Claim C9: `framebuffer` and `logcat`.

Both bodies are `raise NotImplemented()`.  `NotImplemented` is Python's
non-callable singleton — it is not an exception class — so evaluating the
expression `NotImplemented()` raises `TypeError: 'NotImplementedType' object
is not callable`, and that `TypeError` is what reaches the caller, not a
`NotImplementedError`.  Neither method dispatches any protocol command. -/

inductive PyExc
  | typeError (msg : List Char)
  | notImplementedError
deriving DecidableEq

/-- The Python value named in the `raise` statement. -/
inductive PyVal
  | notImplementedSingleton
deriving DecidableEq

/-- Whether a Python value is callable: the `NotImplemented` singleton is not. -/
def pyCallable : PyVal → Bool
  | .notImplementedSingleton => false

/-- Evaluating the call expression `v()`: calling a non-callable value raises
`TypeError`. -/
def pyCall (v : PyVal) : Except PyExc PyVal :=
  if pyCallable v then .ok v
  else .error (PyExc.typeError "NotImplementedType object is not callable".data)

/-- Model of `Transport.framebuffer`, as `(outcome, dispatched protocol commands)`:
`raise NotImplemented()` first evaluates `NotImplemented()`; had that call
produced a value it would be raised as the not-implemented error, but the
call itself raises first. -/
def framebuffer : Except PyExc PUnit × List (List Char) :=
  (match pyCall PyVal.notImplementedSingleton with
    | .error e => .error e
    | .ok _ => .error PyExc.notImplementedError, [])

/-- Model of `Transport.logcat(clear=False)`: same body as `framebuffer`. -/
def logcat (clear : Bool) : Except PyExc PUnit × List (List Char) :=
  (match pyCall PyVal.notImplementedSingleton with
    | .error e => .error e
    | .ok _ => .error PyExc.notImplementedError, [])

/-- C9 (code bug): every invocation of `framebuffer` or `logcat` raises
without dispatching any protocol command — but the exception raised is the
`TypeError` coming from calling the non-callable `NotImplemented` singleton,
not a not-implemented ("not supported") error as the claim states. -/
theorem framebuffer_logcat_raise_typeError :
    framebuffer
      = (.error (PyExc.typeError "NotImplementedType object is not callable".data), [])
    ∧ (∀ clear : Bool, logcat clear
        = (.error (PyExc.typeError "NotImplementedType object is not callable".data), []))
    ∧ framebuffer.1 ≠ .error PyExc.notImplementedError := by
  refine ⟨rfl, fun clear => rfl, fun h => ?_⟩
  have h2 := Except.error.inj h
  exact absurd h2 (by decide)

end PPAdb
